import Mathlib

set_option maxRecDepth 1000000

/-!
Verification of the gh-kusa-breaker core: a shallow embedding in Lean 4 of

* internal/mapping/strength.go   (HPFromCount, BuildBrickGrid),
* internal/game/engine.go        (NewState, Step),
* internal/tui/model.go          (the fixed-timestep accumulator drain of Model.Update),
* the seeded pseudo-random stream of Go's math/rand/v2 PCG generator, as used by NewState.

Numeric conventions of the embedding:

* Go int is embedded as Int (no overflow is relevant to any property below);
  Go integer division (which truncates toward zero) is Int.tdiv.
* Go float64 arithmetic is embedded as exact rational arithmetic over Rat.
  All float64 constants of the source are exactly representable except the
  literals 0.2, 0.01 and 0.05, which the embedding idealises as 1/5, 1/100
  and 1/20; math.Floor, math.Ceil, math.Abs, math.Max become the exact
  Int.floor, Int.ceil, abs and max on Rat; math.Mod is x - y * trunc(x / y).
* Go uint64 / 128-bit PCG state are Nat with explicit reduction mod 2^64 and
  mod 2^128 at every operation where Go wraps.
-/

namespace KusaBreaker

/-! ## Data model of internal/github/contrib.go (only the fields the core reads) -/

/-- A single day entry of the contribution calendar (internal/github/contrib.go). -/
structure Day where
  Date : String
  Weekday : Int
  ContributionCount : Int
  deriving DecidableEq

/-- One calendar week (internal/github/contrib.go). -/
structure Week where
  ContributionDays : List Day
  deriving DecidableEq

/-- A contribution calendar: a chronological list of weeks (internal/github/contrib.go). -/
structure Calendar where
  Weeks : List Week
  deriving DecidableEq

/-! ## internal/mapping/strength.go -/

/-- A brick cell: raw activity count and derived hit points (strength.go). -/
structure BrickCell where
  Count : Int
  HP : Int
  deriving DecidableEq

/-- The 7-row brick grid (strength.go).  Rows and Cols are Go ints that are
always non-negative, embedded as Nat. -/
structure BrickGrid where
  Rows : Nat
  Cols : Nat
  MaxCount : Int
  Cells : List (List BrickCell)
  deriving DecidableEq

/-- HPFromCount of strength.go.  math.Ceil of the float64 quotient is embedded
as the exact Int.ceil of the rational quotient (they agree for every count and
maxCount whose magnitudes stay far below 2^52, which the exactness of float64
on these ranges guarantees). -/
def HPFromCount (count maxCount : Int) : Int :=
  if count ≤ 0 then 0
  else if maxCount ≤ 0 then 1
  else
    let hp : Int := Int.ceil ((4 : ℚ) * (count : ℚ) / (maxCount : ℚ))
    let hp := if hp < 1 then 1 else hp
    let hp := if hp > 4 then 4 else hp
    hp

/-- The week-index → column map of BuildBrickGrid (strength.go line
col := (wi * cols) / len(weeks); Nat division is Go int division here since
all quantities are non-negative). -/
def weekCol (numWeeks cols wi : Nat) : Nat :=
  (wi * cols) / numWeeks

/-- A default (zero-value) brick cell, as produced by Go's make. -/
def zeroCell : BrickCell := ⟨0, 0⟩

/-- Functional update of one cell of a row-major cell matrix. -/
def setCell (cells : List (List BrickCell)) (r c : Nat) (f : BrickCell → BrickCell) :
    List (List BrickCell) :=
  cells.set r ((cells.getD r []).set c (f ((cells.getD r []).getD c zeroCell)))

/-- BuildBrickGrid of strength.go.  The imperative loops are embedded as folds
in the same iteration order; the week loop writes the per-(weekday, column)
maximum contribution count exactly as the source's compare-and-assign does. -/
def BuildBrickGrid (cal : Calendar) (maxCols : Int) : BrickGrid :=
  let weeks := cal.Weeks
  let maxCols := if maxCols ≤ 0 then 1 else maxCols
  if weeks.length = 0 then
    { Rows := 7, Cols := 0, MaxCount := 0, Cells := List.replicate 7 [] }
  else
    let n := weeks.length
    let cols := min n maxCols.toNat
    let init : List (List BrickCell) := List.replicate 7 (List.replicate cols zeroCell)
    let cells := weeks.enum.foldl (fun m p =>
      let col := weekCol n cols p.1
      p.2.ContributionDays.foldl (fun m d =>
        if 0 ≤ d.Weekday ∧ d.Weekday < 7 then
          if d.ContributionCount > ((m.getD d.Weekday.toNat []).getD col zeroCell).Count then
            setCell m d.Weekday.toNat col (fun cell => { cell with Count := d.ContributionCount })
          else m
        else m) m) init
    let maxCount := cells.foldl (fun acc row =>
      row.foldl (fun acc cell => if cell.Count > acc then cell.Count else acc) acc) 0
    let cells := cells.map (fun row =>
      row.map (fun cell => { cell with HP := HPFromCount cell.Count maxCount }))
    { Rows := 7, Cols := cols, MaxCount := maxCount, Cells := cells }

/-! ## The seeded random stream: Go math/rand/v2 PCG (DXSM), as called by the engine -/

/-- The 128-bit multiplier of Go's math/rand/v2 PCG state transition. -/
def pcgMul : Nat := 0x2360ed051fc65da44385df649fccf645

/-- The 128-bit increment of Go's math/rand/v2 PCG state transition. -/
def pcgInc : Nat := 0x5851f42d4c957f2d14057b7ef767814f

/-- The DXSM output multiplier of Go's math/rand/v2 PCG. -/
def pcgCheapMul : Nat := 0xda942042e4dd58b5

/-- The packed 128-bit PCG state made by rand.NewPCG(seed1, seed2). -/
def pcgState (seed1 seed2 : Nat) : Nat :=
  (seed1 % 2 ^ 64) * 2 ^ 64 + seed2 % 2 ^ 64

/-- One PCG state transition: state = state * mul + inc (mod 2^128). -/
def pcgNext (st : Nat) : Nat :=
  (st * pcgMul + pcgInc) % 2 ^ 128

/-- The DXSM output permutation applied to a 128-bit PCG state. -/
def pcgOutput (st : Nat) : Nat :=
  let hi := st / 2 ^ 64
  let lo := st % 2 ^ 64
  let hi := hi ^^^ (hi >>> 32)
  let hi := (hi * pcgCheapMul) % 2 ^ 64
  let hi := hi ^^^ (hi >>> 48)
  (hi * (lo ||| 1)) % 2 ^ 64

/-- PCG.Uint64: advance the state, then apply the output permutation. -/
def randUint64 (st : Nat) : Nat :=
  pcgOutput (pcgNext st)

/-- Rand.Float64: float64(Uint64()<<11>>11) / (1<<53), i.e. the low 53 bits
of the first Uint64 draw over 2^53 (exact in float64 and in Rat). -/
def randFloat64 (st : Nat) : ℚ :=
  ((randUint64 st % 2 ^ 53 : Nat) : ℚ) / 2 ^ 53

/-! ## internal/game/engine.go -/

/-- The per-step input signal (engine.go). -/
structure Input where
  Move : Int
  deriving DecidableEq

/-- The mutable simulation state (engine.go struct State). -/
structure State where
  Width : Int
  Height : Int
  TopOffset : Int
  TopWallY : Int
  BrickW : Int
  Bricks : List (List Int)
  BrickMax : List (List Int)
  PaddleX : ℚ
  PaddleW : ℚ
  PaddleY : ℚ
  BallX : ℚ
  BallY : ℚ
  BallVX : ℚ
  BallVY : ℚ
  Score : Int
  BricksRemaining : Int
  BricksTotal : Int
  Cleared : Bool
  GameOver : Bool
  deriving DecidableEq

/-- Count of strictly positive entries of a brick row (the per-row share of
the remain counting loop of NewState). -/
def countPosRow (row : List Int) : Int :=
  (row.map (fun v => if v > 0 then (1 : Int) else 0)).sum

/-- Count of strictly positive entries of the whole HP matrix. -/
def countPos (m : List (List Int)) : Int :=
  (m.map countPosRow).sum

/-- NewState of engine.go.  The rng draw is the explicit PCG stream seeded
with (seed, seed XOR 0x9e3779b97f4a7c15) exactly as the source does. -/
def NewState (grid : BrickGrid) (width height : Int) (seed : Nat) : State :=
  let width := if width < 10 then 10 else width
  let height := if height < 10 then 10 else height
  let topOffset : Int := 7
  let topWallY : Int := if topOffset > 0 then topOffset - 1 else 0
  let brickW : Int := 2
  let fieldW : Int :=
    if (grid.Cols : Int) * brickW > width then width else (grid.Cols : Int) * brickW
  let bricks : List (List Int) :=
    (List.range grid.Rows).map (fun r =>
      (List.range grid.Cols).map (fun c => ((grid.Cells.getD r []).getD c zeroCell).HP))
  let brickMax := bricks
  let remain := countPos bricks
  let paddleW : ℚ := max 6 ((fieldW : ℚ) / 5)
  let paddleY : ℚ := ((height - 2 : Int) : ℚ)
  let paddleX : ℚ := (fieldW : ℚ) / 2 - paddleW / 2
  let rngState := pcgState seed (seed ^^^ 0x9e3779b97f4a7c15)
  let vx : ℚ := (randFloat64 rngState * 2 - 1) * 10
  let vy : ℚ := -18
  let vx := if vx = 0 then 6 else vx
  { Width := fieldW
    Height := height
    TopOffset := topOffset
    TopWallY := topWallY
    BrickW := brickW
    Bricks := bricks
    BrickMax := brickMax
    PaddleX := paddleX
    PaddleW := paddleW
    PaddleY := paddleY
    BallX := (fieldW : ℚ) / 2
    BallY := paddleY - 1
    BallVX := vx
    BallVY := vy
    Score := 0
    BricksRemaining := remain
    BricksTotal := remain
    Cleared := false
    GameOver := false }

/-- The paddle clamp of Step (engine.go lines 135-141): clamp to at least 0,
then pull back so the paddle's right edge is inside the field. -/
def clampPaddle (W : Int) (pw px : ℚ) : ℚ :=
  let px := if px < 0 then 0 else px
  if px + pw > (W : ℚ) then (W : ℚ) - pw else px

/-- Result of the brick-collision section of Step. -/
structure BrickOut where
  Bricks : List (List Int)
  Score : Int
  Remaining : Int
  Cleared : Bool
  X : ℚ
  Y : ℚ
  VX : ℚ
  VY : ℚ

/-- The brick-collision section of Step (engine.go lines 178-227): locate the
cell under the floor-rounded ball position, award score from the initial HP,
decrement HP, update remaining / cleared, and resolve one directional bounce
with the priority left, right, top, bottom, fallback vertical flip. -/
def brickCollide (bricks brickMax : List (List Int)) (topOffset brickW : Int)
    (score remaining : Int) (cleared : Bool)
    (prevX prevY x y vx vy : ℚ) : BrickOut :=
  let iby : Int := Int.floor y
  let br : Int := iby - topOffset
  if 0 ≤ br ∧ br.toNat < bricks.length then
    let row := bricks.getD br.toNat []
    let ibx : Int := Int.floor x
    let bc : Int := Int.tdiv ibx brickW
    if 0 ≤ bc ∧ bc.toNat < row.length ∧ row.getD bc.toNat 0 > 0 then
      let base := (brickMax.getD br.toNat []).getD bc.toNat 0
      let base := if base < 1 then 1 else base
      let score := score + 10 * base
      let newVal := row.getD bc.toNat 0 - 1
      let bricks := bricks.set br.toNat (row.set bc.toNat newVal)
      let remaining2 : Int := if newVal = 0 then remaining - 1 else remaining
      let cleared2 : Bool :=
        if newVal = 0 then (if remaining - 1 ≤ 0 then true else cleared) else cleared
      let left : ℚ := ((bc * brickW : Int) : ℚ)
      let right : ℚ := (((bc + 1) * brickW : Int) : ℚ)
      let top : ℚ := ((topOffset + br : Int) : ℚ)
      let bottom : ℚ := top + 1
      let eps : ℚ := 1 / 100
      let bounce : ℚ × ℚ × ℚ × ℚ :=
        if prevX < left ∧ x ≥ left then (left - eps, y, -|vx|, vy)
        else if prevX ≥ right ∧ x < right then (right + eps, y, |vx|, vy)
        else if prevY < top ∧ y ≥ top then (x, top - eps, vx, -|vy|)
        else if prevY ≥ bottom ∧ y < bottom then (x, bottom + eps, vx, |vy|)
        else (x, y, vx, -vy)
      { Bricks := bricks, Score := score, Remaining := remaining2, Cleared := cleared2
        X := bounce.1, Y := bounce.2.1, VX := bounce.2.2.1, VY := bounce.2.2.2 }
    else
      { Bricks := bricks, Score := score, Remaining := remaining, Cleared := cleared
        X := x, Y := y, VX := vx, VY := vy }
  else
    { Bricks := bricks, Score := score, Remaining := remaining, Cleared := cleared
      X := x, Y := y, VX := vx, VY := vy }

/-- Step of engine.go: terminal freeze, paddle move and clamp, Euler ball
integration, wall and ceiling reflection, paddle deflection, brick collision,
and the bottom game-over check, in exactly the source's order. -/
def Step (s : State) (dt : ℚ) (inp : Input) : State :=
  if s.Cleared || s.GameOver then s
  else
    let prevX := s.BallX
    let prevY := s.BallY
    let px := clampPaddle s.Width s.PaddleW (s.PaddleX + (inp.Move : ℚ) * 70 * dt)
    let bx0 := s.BallX + s.BallVX * dt
    let by0 := s.BallY + s.BallVY * dt
    let wall : ℚ × ℚ :=
      if bx0 < 0 then (0, |s.BallVX|)
      else if bx0 > (s.Width : ℚ) - 1 then ((s.Width : ℚ) - 1, -|s.BallVX|)
      else (bx0, s.BallVX)
    let bx1 := wall.1
    let vx1 := wall.2
    let ceilv : ℚ × ℚ :=
      if by0 < (s.TopWallY : ℚ) then ((s.TopWallY : ℚ), |s.BallVY|)
      else (by0, s.BallVY)
    let by1 := ceilv.1
    let vy1 := ceilv.2
    let paddleTop := s.PaddleY - 1 / 2
    let pc : ℚ × ℚ :=
      if by1 ≥ paddleTop - 1 / 5 ∧ by1 ≤ paddleTop + 1 / 5 ∧
          bx1 ≥ px ∧ bx1 ≤ px + s.PaddleW ∧ vy1 > 0 then
        let rel := (bx1 - (px + s.PaddleW / 2)) / (s.PaddleW / 2)
        let nvx := vx1 + rel * 12
        let nvx := if nvx > 30 then 30 else if nvx < -30 then -30 else nvx
        (nvx, -|vy1|)
      else (vx1, vy1)
    let bp := brickCollide s.Bricks s.BrickMax s.TopOffset s.BrickW
      s.Score s.BricksRemaining s.Cleared prevX prevY bx1 by1 pc.1 pc.2
    let gameOver := if bp.Y > (s.Height : ℚ) then true else s.GameOver
    { s with
      PaddleX := px
      BallX := bp.X
      BallY := bp.Y
      BallVX := bp.VX
      BallVY := bp.VY
      Bricks := bp.Bricks
      Score := bp.Score
      BricksRemaining := bp.Remaining
      Cleared := bp.Cleared
      GameOver := gameOver }

/-- Fold a list of (dt, input) pairs through Step. -/
def runSteps (s : State) (l : List (ℚ × Input)) : State :=
  l.foldl (fun s p => Step s p.1 p.2) s

/-! ## internal/tui/model.go: the fixed-timestep accumulator drain -/

/-- The fixed physics quantum (model.go: const fixed = 1.0 / 120.0). -/
def fixedDt : ℚ := 1 / 120

/-- The step cap per frame (model.go: const maxStepsPerTick = 10). -/
def maxStepsPerTick : Nat := 10

/-- The baseline speed multiplier (model.go: const baseSpeedMultiplier = 1.25). -/
def baseSpeedMultiplier : ℚ := 5 / 4

/-- The frame-delta clamp of Model.Update (model.go lines 109-114): clamp the
measured wall-clock delta to [0, 0.05]. -/
def clampFrameDt (dt : ℚ) : ℚ :=
  let dt := if dt < 0 then 0 else dt
  if dt > 1 / 20 then 1 / 20 else dt

/-- Truncation toward zero of a rational, as Go's float-to-int-like
truncation used by math.Mod. -/
def ratTrunc (q : ℚ) : Int :=
  if 0 ≤ q then Int.floor q else Int.ceil q

/-- Go math.Mod(x, y): x - y * trunc(x / y) (result has the sign of x). -/
def goMod (x y : ℚ) : ℚ :=
  x - y * (ratTrunc (x / y) : ℚ)

/-- The while loop of Model.Update draining the accumulator (model.go lines
126-131), written with the remaining-iteration budget as explicit fuel: each
iteration requires acc ≥ fixedDt, performs one Step with the latched input,
subtracts the quantum and counts the step.  Returns (state, acc, steps). -/
def drainLoop (fuel : Nat) (st : State) (mv : Int) (acc : ℚ) : State × ℚ × Nat :=
  match fuel with
  | 0 => (st, acc, 0)
  | fuel + 1 =>
    if acc ≥ fixedDt then
      let r := drainLoop fuel (Step st fixedDt ⟨mv⟩) mv (acc - fixedDt)
      (r.1, r.2.1, r.2.2 + 1)
    else (st, acc, 0)

/-- The simulation part of one tickMsg of Model.Update (model.go lines
119-136), for a frame in the playing state: scale and accumulate the clamped
frame delta, drain at most maxStepsPerTick fixed steps, and on hitting the
cap discard the remainder modulo the quantum.  Returns (state, acc, steps). -/
def tickSim (st : State) (acc rawDt speed : ℚ) (mv : Int) : State × ℚ × Nat :=
  let dt := clampFrameDt rawDt
  let acc := acc + dt * (speed * baseSpeedMultiplier)
  let r := drainLoop maxStepsPerTick st mv acc
  let acc2 := if r.2.2 ≥ maxStepsPerTick then goMod r.2.1 fixedDt else r.2.1
  (r.1, acc2, r.2.2)

/-- The effective column count of BuildBrickGrid: min(numWeeks, maxCols)
after clamping non-positive maxCols to 1 (strength.go lines 47-57). -/
def effCols (n : Nat) (maxCols : Int) : Nat :=
  min n (if maxCols ≤ 0 then 1 else maxCols).toNat

/-- The tuple of observable fields named by the determinism property: score,
brick HP matrix, ball position and velocity, paddle position, and the two
terminal flags. -/
def observables (s : State) :
    Int × List (List Int) × ℚ × ℚ × ℚ × ℚ × ℚ × Bool × Bool :=
  (s.Score, s.Bricks, s.BallX, s.BallY, s.BallVX, s.BallVY, s.PaddleX, s.Cleared, s.GameOver)

/-- A 7x1 grid holding a single HP-1 brick on weekday row 4 (a legitimate
BrickGrid value: row 4 sits at field rows 11..12 once topOffset 7 is added). -/
def gridOneBrick : BrickGrid :=
  { Rows := 7, Cols := 1, MaxCount := 1,
    Cells := [[zeroCell], [zeroCell], [zeroCell], [zeroCell], [⟨1, 1⟩], [zeroCell], [zeroCell]] }

/-- A one-week calendar: 4 contributions on Sunday (weekday 0) and 1 on
Thursday (weekday 4). -/
def calOneWeek : Calendar :=
  ⟨[⟨[⟨"2025-01-05", 0, 4⟩, ⟨"2025-01-09", 4, 1⟩]⟩]⟩

/-- The grid BuildBrickGrid derives from calOneWeek: one column, an HP-4
brick on row 0 (field rows 7..8) and an HP-1 brick on row 4 (field rows
11..12, below the clamped minimum field height 10). -/
def gridFromCalendar : BrickGrid := BuildBrickGrid calOneWeek 52

/-- A 7x3 grid of HP-1 bricks, wide enough that the paddle fits in the field. -/
def gridThreeCols : BrickGrid :=
  { Rows := 7, Cols := 3, MaxCount := 1,
    Cells := List.replicate 7 (List.replicate 3 (⟨1, 1⟩ : BrickCell)) }

/-- A concrete terminal state: a fresh engine state with the cleared flag set. -/
def clearedState : State :=
  { NewState gridOneBrick 10 10 1 with Cleared := true }

/-! ## Shared lemmas -/

/-- Step returns its argument unchanged as soon as either terminal flag holds
(the first guard of Step). -/
theorem Step_frozen (s : State) (dt : ℚ) (inp : Input)
    (h : s.Cleared = true ∨ s.GameOver = true) : Step s dt inp = s := by
  have hb : (s.Cleared || s.GameOver) = true := by
    rcases h with h | h <;> simp [h]
  simp only [Step, hb, if_true]

/-- Folding any input list over a terminal state changes nothing. -/
theorem runSteps_frozen (s : State) (l : List (ℚ × Input))
    (h : s.Cleared = true ∨ s.GameOver = true) : runSteps s l = s := by
  induction l with
  | nil => rfl
  | cons p l ih =>
    show runSteps (Step s p.1 p.2) l = s
    rw [Step_frozen s p.1 p.2 h, ih]

/-! ## C1: determinism -/

/-- C1: two engine states constructed by NewState from identical grid, width,
height and seed, and driven through Step by identical (dt, input) sequences,
agree on every observable field (score, HP matrix, ball position/velocity,
paddle position, terminal flags) after every prefix of the sequence. -/
theorem C1_determinism (g1 g2 : BrickGrid) (w1 w2 h1 h2 : Int) (seed1 seed2 : Nat)
    (ins1 ins2 : List (ℚ × Input))
    (hg : g1 = g2) (hw : w1 = w2) (hh : h1 = h2) (hs : seed1 = seed2) (hi : ins1 = ins2) :
    ∀ k : Nat,
      observables (runSteps (NewState g1 w1 h1 seed1) (ins1.take k)) =
        observables (runSteps (NewState g2 w2 h2 seed2) (ins2.take k)) := by
  subst hg hw hh hs hi
  intro k
  rfl

/-- Witness for C1 at a concrete grid, dimensions, seed and input list. -/
theorem C1_determinism_witness :
    observables (runSteps (NewState gridOneBrick 10 10 1) ([(1/6, ⟨0⟩)].take 1)) =
      observables (runSteps (NewState gridOneBrick 10 10 1) ([(1/6, ⟨0⟩)].take 1)) :=
  C1_determinism gridOneBrick gridOneBrick 10 10 10 10 1 1 [(1/6, ⟨0⟩)] [(1/6, ⟨0⟩)]
    rfl rfl rfl rfl rfl 1

/-! ## C2: terminal states are frozen -/

/-- C2: if the cleared flag or the gameOver flag is already set, Step leaves
every field of the state unchanged, for every dt and every input. -/
theorem C2_terminal_noop (s : State) (dt : ℚ) (inp : Input)
    (h : s.Cleared = true ∨ s.GameOver = true) : Step s dt inp = s :=
  Step_frozen s dt inp h

/-- Witness for C2 on a concrete cleared state. -/
theorem C2_terminal_noop_witness : Step clearedState 1 ⟨1⟩ = clearedState :=
  C2_terminal_noop clearedState 1 ⟨1⟩ (Or.inl rfl)

/-! ## C3: mutual exclusion of the terminal flags fails within a single Step -/

/-- C3 counterexample: from NewState on the BuildBrickGrid output for
calOneWeek, six Step calls reach a state in which the cleared flag and the
gameOver flag are both true.  Four zero-dt steps break the HP-4 brick the
ball starts inside; the fifth step bounces the ball off the ceiling; the
sixth destroys the last brick on row 4 at ball height 11.5 (setting cleared,
since bricksRemaining reaches 0) and then, in the same call, sees the ball's
height 10.99 above the field height 10 (setting gameOver). -/
theorem C3_both_flags_counterexample :
    (runSteps (NewState gridFromCalendar 10 10 1)
        [(0, ⟨0⟩), (0, ⟨0⟩), (0, ⟨0⟩), (0, ⟨0⟩), (1/6, ⟨0⟩), (11/36, ⟨0⟩)]).Cleared = true ∧
      (runSteps (NewState gridFromCalendar 10 10 1)
        [(0, ⟨0⟩), (0, ⟨0⟩), (0, ⟨0⟩), (0, ⟨0⟩), (1/6, ⟨0⟩), (11/36, ⟨0⟩)]).GameOver = true := by
  with_unfolding_all decide

/-- C3 (amended): the two terminal flags are not mutually exclusive in all
reachable states, because the Step that destroys the last brick can also see
the ball below the field bottom and set both flags at once; what does hold is
that the flags are monotone across steps: once the state is terminal, no
later Step changes either flag (so a flag that was not set together with the
other can never be set afterwards). -/
theorem C3_terminal_flags_stable (s : State) (l : List (ℚ × Input))
    (h : s.Cleared = true ∨ s.GameOver = true) :
    (runSteps s l).Cleared = s.Cleared ∧ (runSteps s l).GameOver = s.GameOver := by
  rw [runSteps_frozen s l h]
  exact ⟨rfl, rfl⟩

/-- Witness for the amended C3 on a concrete cleared state. -/
theorem C3_terminal_flags_stable_witness :
    (runSteps clearedState [(1, ⟨0⟩), (1, ⟨1⟩)]).Cleared = clearedState.Cleared ∧
      (runSteps clearedState [(1, ⟨0⟩), (1, ⟨1⟩)]).GameOver = clearedState.GameOver :=
  C3_terminal_flags_stable clearedState [(1, ⟨0⟩), (1, ⟨1⟩)] (Or.inl rfl)

/-! ## C4: the HP formula -/

/-- C4: HPFromCount returns 0 for non-positive count, else 1 for non-positive
maxCount, else the ceiling of 4*count/maxCount clamped to [1, 4]; the spec's
sample values hold, and a count equal to a positive grid maximum gets HP 4. -/
theorem C4_hp_formula :
    (∀ c m : Int, HPFromCount c m =
        if c ≤ 0 then 0
        else if m ≤ 0 then 1
        else min 4 (max 1 (Int.ceil ((4 : ℚ) * (c : ℚ) / (m : ℚ))))) ∧
      HPFromCount 5 5 = 4 ∧ HPFromCount 1 10 = 1 ∧ HPFromCount 0 10 = 0 ∧
      HPFromCount 3 10 = 2 ∧ (∀ m : Int, 0 < m → HPFromCount m m = 4) := by
  refine ⟨?_, by with_unfolding_all decide, by with_unfolding_all decide,
    by with_unfolding_all decide, by with_unfolding_all decide, ?_⟩
  · intro c m
    simp only [HPFromCount]
    split_ifs <;> omega
  · intro m hm
    have hne : (m : ℚ) ≠ 0 := Int.cast_ne_zero.mpr (by omega)
    have h4 : (4 : ℚ) * (m : ℚ) / (m : ℚ) = 4 := by
      rw [mul_div_assoc, div_self hne, mul_one]
    simp only [HPFromCount, if_neg (by omega : ¬ m ≤ 0), h4]
    norm_num

/-- Witness for C4's conditional conjunct at a concrete positive maximum. -/
theorem C4_hp_formula_witness : HPFromCount 3 3 = 4 :=
  C4_hp_formula.2.2.2.2.2 3 (by decide)

/-! ## C5: the week-to-column map -/

/-- Monotonicity of the week-to-column map in the week index. -/
theorem weekCol_mono (n c wi wj : Nat) (h : wi ≤ wj) :
    weekCol n c wi ≤ weekCol n c wj :=
  Nat.div_le_div_right (Nat.mul_le_mul_right c h)

/-- The week-to-column map lands strictly below the column count. -/
theorem weekCol_lt (n c wi : Nat) (hc : 0 < c) (hw : wi < n) :
    weekCol n c wi < c := by
  have hn : 0 < n := lt_of_le_of_lt (Nat.zero_le _) hw
  rw [weekCol, Nat.div_lt_iff_lt_mul hn, Nat.mul_comm c n]
  exact Nat.mul_lt_mul_of_lt_of_le hw (le_refl c) hc

/-- Every column below the column count is hit by some week index (the
witnessing week index is the ceiling of k*numWeeks/cols). -/
theorem weekCol_surj (n c k : Nat) (hc : 0 < c) (hcn : c ≤ n) (hk : k < c) :
    ∃ wi : Nat, wi < n ∧ weekCol n c wi = k := by
  set wi := (k * n + c - 1) / c with hwi
  have h1 := Nat.div_add_mod (k * n + c - 1) c
  have h2 := Nat.mod_lt (k * n + c - 1) hc
  rw [← hwi] at h1
  have hcomm : wi * c = c * wi := Nat.mul_comm wi c
  have hkd : k ≤ c - 1 := by omega
  have hY : k * n ≤ (c - 1) * n := Nat.mul_le_mul_right n hkd
  have hcn2 : c * n = (c - 1) * n + n := by
    have hp : c - 1 + 1 = c := Nat.succ_pred_eq_of_pos hc
    calc c * n = (c - 1 + 1) * n := by rw [hp]
    _ = (c - 1) * n + n := by rw [Nat.succ_mul]
  have hXlt : c * wi < c * n := by omega
  have hwin : wi < n := Nat.lt_of_mul_lt_mul_left hXlt
  have hsm : (k + 1) * n = k * n + n := Nat.succ_mul k n
  have hA : k * n ≤ wi * c := by omega
  have hB : wi * c < (k + 1) * n := by omega
  exact ⟨wi, hwin, Nat.div_eq_of_lt_le hA hB⟩

/-- C5: with a non-empty calendar of n weeks, BuildBrickGrid uses exactly
cols = min(n, clamped maxCols) columns; the week-to-column map wi maps to
floor(wi*cols/n), is monotone non-decreasing in wi, always lands below cols,
and (in particular when n is at least maxCols) attains every column below
cols, so its image is exactly the cols distinct columns 0..cols-1. -/
theorem C5_week_to_column (n : Nat) (maxCols : Int) (hn : 0 < n) :
    (∀ cal : Calendar, cal.Weeks.length = n →
        (BuildBrickGrid cal maxCols).Cols = effCols n maxCols) ∧
      (∀ wi wj : Nat, wi ≤ wj →
        weekCol n (effCols n maxCols) wi ≤ weekCol n (effCols n maxCols) wj) ∧
      (∀ wi : Nat, wi < n → weekCol n (effCols n maxCols) wi < effCols n maxCols) ∧
      ((maxCols : Int) ≤ (n : Int) → ∀ k : Nat, k < effCols n maxCols →
        ∃ wi : Nat, wi < n ∧ weekCol n (effCols n maxCols) wi = k) := by
  have hc : 0 < effCols n maxCols := by
    unfold effCols
    split_ifs <;> omega
  have hcn : effCols n maxCols ≤ n := Nat.min_le_left _ _
  refine ⟨?_, fun wi wj h => weekCol_mono _ _ _ _ h,
    fun wi hw => weekCol_lt _ _ _ hc hw,
    fun _ k hk => weekCol_surj _ _ _ hc hcn hk⟩
  intro cal hlen
  simp only [BuildBrickGrid, hlen]
  rw [if_neg (by omega : ¬ n = 0)]
  rfl

/-- Witness for C5 at 8 weeks and 4 columns: column 3 is attained. -/
theorem C5_week_to_column_witness :
    ∃ wi : Nat, wi < 8 ∧ weekCol 8 (effCols 8 4) wi = 3 :=
  (C5_week_to_column 8 4 (by decide)).2.2.2 (by decide) 3 (by decide)

/-! ## C6: the frame scheduler's step cap and residual bound -/

/-- The drain loop never performs more steps than its budget. -/
theorem drainLoop_steps_le (fuel : Nat) (st : State) (mv : Int) (acc : ℚ) :
    (drainLoop fuel st mv acc).2.2 ≤ fuel := by
  induction fuel generalizing st acc with
  | zero => simp [drainLoop]
  | succ fuel ih =>
    rw [drainLoop]
    split
    · exact Nat.succ_le_succ (ih _ _)
    · exact Nat.zero_le _

/-- Go's math.Mod(x, y) is strictly below y whenever y is positive. -/
theorem goMod_lt (x y : ℚ) (hy : 0 < y) : goMod x y < y := by
  have hmul : y * (x / y) = x := by field_simp
  unfold goMod ratTrunc
  split_ifs with h
  · have h1 : x / y < (⌊x / y⌋ : ℚ) + 1 := Int.lt_floor_add_one _
    have h3 : y * (x / y) < y * ((⌊x / y⌋ : ℚ) + 1) := by
      exact mul_lt_mul_of_pos_left h1 hy
    rw [hmul] at h3
    nlinarith
  · have h2 : x / y ≤ (⌈x / y⌉ : ℚ) := Int.le_ceil _
    have h3 : y * (x / y) ≤ y * (⌈x / y⌉ : ℚ) := by
      exact mul_le_mul_of_nonneg_left h2 (le_of_lt hy)
    rw [hmul] at h3
    nlinarith

/-- C6: one simulated frame performs at most maxStepsPerTick (= 10) physics
steps of fixedDt (= 1/120), and whenever that cap is reached the accumulator
is reduced modulo the quantum, leaving a residual strictly below fixedDt. -/
theorem C6_frame_cap (st : State) (acc rawDt speed : ℚ) (mv : Int) :
    (tickSim st acc rawDt speed mv).2.2 ≤ maxStepsPerTick ∧
      ((tickSim st acc rawDt speed mv).2.2 = maxStepsPerTick →
        (tickSim st acc rawDt speed mv).2.1 < fixedDt) := by
  unfold tickSim
  refine ⟨drainLoop_steps_le _ _ _ _, fun h => ?_⟩
  simp only at h ⊢
  rw [if_pos (le_of_eq h.symm)]
  exact goMod_lt _ _ (by norm_num [fixedDt])

/-- Witness for C6's conditional part on a concrete overloaded frame (the
accumulated scaled delta covers far more than ten quanta, so the cap of 10
steps is hit and the residual is below one quantum). -/
theorem C6_frame_cap_witness :
    (tickSim (NewState gridOneBrick 10 10 1) 0 (1/20) 8 0).2.1 < fixedDt :=
  (C6_frame_cap (NewState gridOneBrick 10 10 1) 0 (1/20) 8 0).2
    (by with_unfolding_all decide)

/-! ## C7: BuildBrickGrid always returns 7 rows -/

/-- C7: for every calendar (including the empty one) and every maxCols value,
BuildBrickGrid returns a grid whose Rows field is exactly 7, and the empty
calendar yields 0 columns. -/
theorem C7_rows_always_seven (cal : Calendar) (maxCols : Int) :
    (BuildBrickGrid cal maxCols).Rows = 7 ∧
      (cal.Weeks = [] → (BuildBrickGrid cal maxCols).Cols = 0) := by
  unfold BuildBrickGrid
  by_cases h : cal.Weeks.length = 0
  · simp [h]
  · constructor
    · simp [h]
    · intro he
      rw [he] at h
      simp at h

/-- Witness for C7 on the empty calendar. -/
theorem C7_rows_always_seven_witness : (BuildBrickGrid ⟨[]⟩ 5).Cols = 0 :=
  (C7_rows_always_seven ⟨[]⟩ 5).2 rfl

/-! ## C8: the initial ball velocity -/

/-- C8 counterexample: for seed 11438114097449848090 the first Uint64 draw of
the PCG stream seeded with (seed, seed XOR 0x9e3779b97f4a7c15) is
0x9980000000000000, whose low 53 bits are all zero, so Float64() is exactly 0
and the initial horizontal velocity is (0*2 - 1)*10 = -10 — on the boundary,
not strictly inside the open interval (-10, 10) that the claim states (and,
being nonzero, it is not replaced by +6). -/
theorem C8_open_interval_counterexample :
    (NewState gridFromCalendar 10 10 11438114097449848090).BallVX = -10 ∧
      ¬ (-10 < (NewState gridFromCalendar 10 10 11438114097449848090).BallVX) := by
  with_unfolding_all decide

/-- C8 (amended): for every seed the initial horizontal velocity drawn by
NewState lies in the half-open interval [-10, 10) (the left endpoint -10 is
attained exactly when the 53-bit draw is 0), it is never exactly 0 (a zero
draw is replaced by +6), and the vertical velocity is the fixed upward -18. -/
theorem C8_initial_velocity (grid : BrickGrid) (width height : Int) (seed : Nat) :
    -10 ≤ (NewState grid width height seed).BallVX ∧
      (NewState grid width height seed).BallVX < 10 ∧
      (NewState grid width height seed).BallVX ≠ 0 ∧
      (NewState grid width height seed).BallVY = -18 := by
  simp only [NewState]
  set f := randFloat64 (pcgState seed (seed ^^^ 0x9e3779b97f4a7c15)) with hf
  have h0 : 0 ≤ f := by
    rw [hf]
    unfold randFloat64
    positivity
  have h1 : f < 1 := by
    rw [hf]
    unfold randFloat64
    rw [div_lt_one (by positivity)]
    exact_mod_cast Nat.mod_lt _ (by positivity)
  by_cases hz : (f * 2 - 1) * 10 = 0
  · rw [if_pos hz]
    norm_num
  · rw [if_neg hz]
    exact ⟨by nlinarith, by nlinarith, hz, by trivial⟩

/-! ## C9: the paddle clamp -/

/-- C9 counterexample: on the one-column grid built from calOneWeek the field
is 2 units wide while the paddle is max(6, 2/5) = 6 units wide, so after one
Step on the fresh (non-terminal) state the paddle position is
fieldWidth - paddleWidth = -4, which does not lie in the stated interval
[0, fieldWidth - paddleWidth] (that interval is empty here). -/
theorem C9_paddle_counterexample :
    (NewState gridFromCalendar 10 10 0).Cleared = false ∧
      (NewState gridFromCalendar 10 10 0).GameOver = false ∧
      ¬ (0 ≤ (Step (NewState gridFromCalendar 10 10 0) 0 ⟨0⟩).PaddleX ∧
          (Step (NewState gridFromCalendar 10 10 0) 0 ⟨0⟩).PaddleX ≤
            ((Step (NewState gridFromCalendar 10 10 0) 0 ⟨0⟩).Width : ℚ) -
              (Step (NewState gridFromCalendar 10 10 0) 0 ⟨0⟩).PaddleW) := by
  with_unfolding_all decide

/-- The paddle clamp lands in [0, W - pw] whenever the paddle fits. -/
theorem clampPaddle_mem (W : Int) (pw px : ℚ) (hpw : pw ≤ (W : ℚ)) :
    0 ≤ clampPaddle W pw px ∧ clampPaddle W pw px ≤ (W : ℚ) - pw := by
  simp only [clampPaddle]
  split_ifs <;> refine ⟨by linarith, by linarith⟩

/-- C9 (amended): after a Step on a non-terminal state whose paddle is no
wider than the field, the paddle position lies within
[0, fieldWidth - paddleWidth]; when the paddle is wider than the field (a
field narrower than 6 units, i.e. fewer than 3 brick columns), the clamp
instead pins it to the negative value fieldWidth - paddleWidth. -/
theorem C9_paddle_clamped (s : State) (dt : ℚ) (inp : Input)
    (hC : s.Cleared = false) (hG : s.GameOver = false)
    (hpw : s.PaddleW ≤ (s.Width : ℚ)) :
    0 ≤ (Step s dt inp).PaddleX ∧
      (Step s dt inp).PaddleX ≤
        ((Step s dt inp).Width : ℚ) - (Step s dt inp).PaddleW := by
  have hb : (s.Cleared || s.GameOver) = false := by simp [hC, hG]
  simp only [Step, hb, Bool.false_eq_true, if_false]
  exact clampPaddle_mem s.Width s.PaddleW _ hpw

/-- Witness for the amended C9 on a three-column grid (field width 6,
paddle width 6). -/
theorem C9_paddle_clamped_witness :
    0 ≤ (Step (NewState gridThreeCols 10 10 1) 1 ⟨1⟩).PaddleX ∧
      (Step (NewState gridThreeCols 10 10 1) 1 ⟨1⟩).PaddleX ≤
        ((Step (NewState gridThreeCols 10 10 1) 1 ⟨1⟩).Width : ℚ) -
          (Step (NewState gridThreeCols 10 10 1) 1 ⟨1⟩).PaddleW :=
  C9_paddle_clamped (NewState gridThreeCols 10 10 1) 1 ⟨1⟩
    (by with_unfolding_all rfl) (by with_unfolding_all rfl)
    (by with_unfolding_all decide)

/-! ## C10: BricksRemaining counts the positive-HP cells -/

/-- countPosRow of a cons. -/
theorem countPosRow_cons (a : Int) (l : List Int) :
    countPosRow (a :: l) = (if a > 0 then 1 else 0) + countPosRow l := by
  simp [countPosRow]

/-- countPos of a cons. -/
theorem countPos_cons (a : List Int) (m : List (List Int)) :
    countPos (a :: m) = countPosRow a + countPos m := by
  simp [countPos]

/-- Setting one in-range entry of a row adjusts its positive count by the
difference of the two indicator values. -/
theorem countPosRow_set (row : List Int) (c : Nat) (v : Int) (hc : c < row.length) :
    countPosRow (row.set c v) =
      countPosRow row - (if row.getD c 0 > 0 then 1 else 0) +
        (if v > 0 then 1 else 0) := by
  induction row generalizing c with
  | nil => simp at hc
  | cons a row ih =>
    cases c with
    | zero =>
      simp only [List.set_cons_zero, countPosRow_cons, List.getD_cons_zero]
      omega
    | succ c =>
      have hc2 : c < row.length := by simpa using hc
      simp only [List.set_cons_succ, countPosRow_cons, List.getD_cons_succ, ih c hc2]
      omega

/-- Replacing one in-range row of the matrix adjusts the positive count by the
difference of the two row counts. -/
theorem countPos_set (m : List (List Int)) (r : Nat) (row2 : List Int)
    (hr : r < m.length) :
    countPos (m.set r row2) =
      countPos m - countPosRow (m.getD r []) + countPosRow row2 := by
  induction m generalizing r with
  | nil => simp at hr
  | cons a m ih =>
    cases r with
    | zero =>
      simp only [List.set_cons_zero, countPos_cons, List.getD_cons_zero]
      omega
    | succ r =>
      have hr2 : r < m.length := by simpa using hr
      simp only [List.set_cons_succ, countPos_cons, List.getD_cons_succ, ih r hr2]
      omega

/-- The brick-collision section keeps Remaining equal to the number of
positive-HP cells: a hit decrements the struck cell, and decrements Remaining
exactly when that cell drops from 1 to 0. -/
theorem brickCollide_inv (bricks brickMax : List (List Int)) (topOffset brickW : Int)
    (score remaining : Int) (cleared : Bool) (prevX prevY x y vx vy : ℚ)
    (hinv : remaining = countPos bricks) :
    (brickCollide bricks brickMax topOffset brickW score remaining cleared
        prevX prevY x y vx vy).Remaining =
      countPos (brickCollide bricks brickMax topOffset brickW score remaining cleared
        prevX prevY x y vx vy).Bricks := by
  simp only [brickCollide]
  by_cases h1 : 0 ≤ Int.floor y - topOffset ∧ (Int.floor y - topOffset).toNat < bricks.length
  · rw [if_pos h1]
    by_cases h2 : 0 ≤ Int.tdiv (Int.floor x) brickW ∧
        (Int.tdiv (Int.floor x) brickW).toNat <
          (bricks.getD (Int.floor y - topOffset).toNat []).length ∧
        (bricks.getD (Int.floor y - topOffset).toNat []).getD
          (Int.tdiv (Int.floor x) brickW).toNat 0 > 0
    · rw [if_pos h2]
      dsimp only
      rw [countPos_set _ _ _ h1.2, countPosRow_set _ _ _ h2.2.1]
      have hpos := h2.2.2
      split_ifs <;> omega
    · rw [if_neg h2]
      exact hinv
  · rw [if_neg h1]
    exact hinv

/-- Step preserves the BricksRemaining invariant. -/
theorem Step_preserves_inv (s : State) (dt : ℚ) (inp : Input)
    (h : s.BricksRemaining = countPos s.Bricks) :
    (Step s dt inp).BricksRemaining = countPos (Step s dt inp).Bricks := by
  by_cases hb : (s.Cleared || s.GameOver) = true
  · rw [Step_frozen s dt inp (by simpa using hb)]
    exact h
  · have hb2 : (s.Cleared || s.GameOver) = false := by
      revert hb
      cases (s.Cleared || s.GameOver) <;> simp
    simp only [Step, hb2, Bool.false_eq_true, if_false]
    exact brickCollide_inv _ _ _ _ _ _ _ _ _ _ _ _ _ h

/-- Any number of Steps preserves the BricksRemaining invariant. -/
theorem runSteps_preserves_inv (l : List (ℚ × Input)) (s : State)
    (h : s.BricksRemaining = countPos s.Bricks) :
    (runSteps s l).BricksRemaining = countPos (runSteps s l).Bricks := by
  induction l generalizing s with
  | nil => exact h
  | cons p l ih => exact ih _ (Step_preserves_inv _ _ _ h)

/-- C10: in every state reachable from NewState by a sequence of Steps,
BricksRemaining equals the number of cells of the current HP matrix with
strictly positive HP; the equality holds at construction and is preserved by
every Step. -/
theorem C10_bricksRemaining_invariant (g : BrickGrid) (w h : Int) (seed : Nat)
    (l : List (ℚ × Input)) :
    (runSteps (NewState g w h seed) l).BricksRemaining =
      countPos (runSteps (NewState g w h seed) l).Bricks :=
  runSteps_preserves_inv l _ rfl

end KusaBreaker
